import Mathlib

/-!
# Verification of the piano practice phrase engine

A shallow embedding of the phrase-generation, score-encoding and
playback-scheduling engine of `src/music_practice/src/components/PianoKeyboard.vue`,
together with theorems settling the specification claims.

Conventions of the embedding:
* JavaScript numbers used for times, durations and progress are modelled as `ℚ`
  (the engine's arithmetic is treated as exact; IEEE rounding is abstracted away).
* MIDI pitches are modelled as `ℤ` (chord building subtracts 12 from a root).
* `Math.random()`-based draws are modelled by an explicit draw stream
  `rand : ℕ → ℕ`: the k-th call to the random source returns `rand k`, and
  `randomInt lo hi r = lo + r % (hi - lo + 1)` mirrors
  `Math.floor(Math.random() * (max - min + 1)) + min` (always in `[lo, hi]`).
* The XML text emitted by the encoder is modelled structurally: one `XmlNote`
  per `<note>` element (a `none` pitch is a `<rest/>`), one `Measure` per
  filled `<measure>` template block, `ScoreDoc` for the whole document.
* `setTimeout` / `clearTimeout` scheduling is modelled by an explicit pending
  trigger list inside a `PlayerState`, with a step relation (`FireStep`) that
  fires pending triggers; `clearTimeout` removes a trigger from the pending
  list, so a cleared trigger can never fire.
-/

/-- Embeds `type Mode = 'C_MAJOR' | 'G_MAJOR' | 'A_MINOR'`. -/
inductive Mode where
  | C_MAJOR
  | G_MAJOR
  | A_MINOR
deriving DecidableEq

/-- Embeds `type Staff = 'treble' | 'bass'`. -/
inductive Staff where
  | treble
  | bass
deriving DecidableEq

/-- Embeds `interface NoteEvent` — one scheduled sounding of a pitch. -/
structure NoteEvent where
  time : ℚ
  duration : ℚ
  midi : ℤ
  staff : Staff
  isChord : Bool
deriving DecidableEq

/-- Embeds `const tempos = [60, 80, 100, 120, 140]`. -/
def tempos : List ℕ := [60, 80, 100, 120, 140]

/-- Embeds `const phraseLengthBars = 4`. -/
def phraseLengthBars : ℕ := 4

/-- Decimal digits to a number, modelling JS `Number` on a digit string. -/
def digitsToNat (cs : List Char) : ℕ :=
  cs.foldl (fun n c => 10 * n + (c.toNat - 48)) 0

/-- Embeds `const [beatsPerBarStr] = meter.split('/'); const beatsPerBar = Number(beatsPerBarStr)` —
the numerator of the meter string (the only selectable meter is `"4/4"`). -/
def beatsPerBarOf (meter : String) : ℕ :=
  digitsToNat (meter.toList.takeWhile (fun c => c ≠ '/'))

/-- Embeds `phraseDuration = beatsPerBar * secondsPerBeat * phraseLengthBars` (seconds). -/
def phraseDurationOf (meter : String) (bpm : ℕ) : ℚ :=
  (beatsPerBarOf meter : ℚ) * (60 / (bpm : ℚ)) * (phraseLengthBars : ℚ)

/-- Embeds `getScaleMidiRange(mode, staff)` — fixed per-staff MIDI range; `mode` is
accepted but ignored. -/
def getScaleMidiRange (_mode : Mode) (staff : Staff) : ℤ × ℤ :=
  match staff with
  | .treble => (60, 84)
  | .bass => (36, 60)

/-- Embeds `randomInt(min, max)` = `Math.floor(Math.random() * (max - min + 1)) + min`,
with the raw draw `r` of the random stream made explicit: the result is
`min + r % (max - min + 1)`, always inside `[min, max]` for `min ≤ max`. -/
def randomInt (lo hi : ℤ) (r : ℕ) : ℤ :=
  lo + (r : ℤ) % (hi - lo + 1)

/-- Embeds `snapToTriad(midi, mode)` — scan `[48, 53, 55]` keeping the first root of
minimal absolute distance to `midi` (`diff` starts at `Infinity`, modelled as
`none`; the update fires only on a strict decrease). `mode` is ignored. -/
def snapToTriad (midi : ℤ) (_mode : Mode) : ℤ :=
  let triads : List ℤ := [48, 53, 55]
  (triads.foldl
    (fun (acc : ℤ × Option ℕ) t =>
      let d := (t - midi).natAbs
      match acc.2 with
      | none => (t, some d)
      | some diff => if d < diff then (t, some d) else acc)
    (48, none)).1

/-- Embeds `buildChord(root, diff)` = `[root, root+4, root+7]`, plus `root-12` when
`diff ≥ 2`, plus `root+11` when `diff ≥ 3`. -/
def buildChord (root : ℤ) (diff : ℕ) : List ℤ :=
  let third := root + 4
  let fifth := root + 7
  let chord := [root, third, fifth]
  let chord := if 2 ≤ diff then chord ++ [root - 12] else chord
  if 3 ≤ diff then chord ++ [root + 11] else chord

/-- The number of chord tones `buildChord` emits at a given difficulty. -/
def chordSize (diff : ℕ) : ℕ :=
  3 + (if 2 ≤ diff then 1 else 0) + (if 3 ≤ diff then 1 else 0)

/-- One iteration of the `generatePhrase` loop body at `beatIndex`, threading
the accumulated event list and the position in the random draw stream
(a bar-start beat consumes two draws: treble pitch then bass seed). -/
def generateBeat (mode : Mode) (beatsPerBar : ℕ) (secondsPerBeat : ℚ)
    (difficulty : ℕ) (rand : ℕ → ℕ) (acc : List NoteEvent × ℕ)
    (beatIndex : ℕ) : List NoteEvent × ℕ :=
  let events := acc.1
  let ctr := acc.2
  let beatInBar := beatIndex % beatsPerBar
  let t : ℚ := (beatIndex : ℚ) * secondsPerBeat
  let tr := getScaleMidiRange mode .treble
  let trebleMidi := randomInt tr.1 tr.2 (rand ctr)
  let events := events ++
    [{ time := t, duration := secondsPerBeat * (9 / 10), midi := trebleMidi,
       staff := .treble, isChord := false }]
  if beatInBar = 0 then
    let br := getScaleMidiRange mode .bass
    let root := snapToTriad (randomInt br.1 br.2 (rand (ctr + 1))) mode
    let chordNotes := buildChord root difficulty
    (events ++ chordNotes.map (fun m =>
      { time := t, duration := secondsPerBeat * (beatsPerBar : ℚ), midi := m,
        staff := .bass, isChord := true }), ctr + 2)
  else
    (events, ctr + 1)

/-- Embeds `generatePhrase()` — for each beat index in `[0, beatsPerBar * phraseLengthBars)`
emit one treble note (uniform in the treble range, duration `0.9` beats) and,
on each bar's first beat, one bass `NoteEvent` per chord tone of the snapped
triad, all sharing the bar-start time and sustained for the whole bar. -/
def generatePhrase (mode : Mode) (meter : String) (bpm : ℕ) (difficulty : ℕ)
    (rand : ℕ → ℕ) : List NoteEvent :=
  let beatsPerBar := beatsPerBarOf meter
  let secondsPerBeat : ℚ := 60 / (bpm : ℚ)
  let totalBeats := beatsPerBar * phraseLengthBars
  ((List.range totalBeats).foldl
    (generateBeat mode beatsPerBar secondsPerBeat difficulty rand) ([], 0)).1

/-! ## Active-note tracker and progress indicator -/

/-- Embeds the `updateActiveNotes()` body on one tick: when not playing the active set is
empty; when playing it is the set of MIDI values of events whose closed
sounding interval `[time, time + duration]` contains `elapsed`
(`elapsed >= ev.time && elapsed <= ev.time + ev.duration`). -/
def updateActiveNotes (isPlaying : Bool) (noteEvents : List NoteEvent)
    (elapsed : ℚ) : Finset ℤ :=
  if !isPlaying then ∅
  else ((noteEvents.filter (fun ev =>
    decide (elapsed ≥ ev.time ∧ elapsed ≤ ev.time + ev.duration))).map
      (fun ev => ev.midi)).toFinset

/-- Embeds the `updateProgress()` body on one tick: `0` when not playing, otherwise
`p = elapsed / phraseDuration` capped at `1` (`if (p > 1) p = 1`); there is
no lower cap. -/
def updateProgress (isPlaying : Bool) (elapsed phraseDuration : ℚ) : ℚ :=
  if !isPlaying then 0
  else
    let p := elapsed / phraseDuration
    if p > 1 then 1 else p

/-! ## Playback scheduler -/

/-- A pending `setTimeout` callback: either one scheduled note trigger or the
phrase-end loop-continuation trigger. -/
inductive Trigger where
  | note (ev : NoteEvent)
  | loop
deriving DecidableEq

/-- The session state owned by the component: the current phrase
(`noteEvents`), the phrase start instant (`phraseStart`, ms), the playing
flag, the pending `setTimeout` registry (`playbackTimers`, delay in ms paired
with the callback), and the trace of `triggerAttackRelease` calls made to the
audio backend (pitch and duration), which the source sends to the sampler. -/
structure PlayerState where
  noteEvents : List NoteEvent
  phraseStart : ℚ
  isPlaying : Bool
  playbackTimers : List (ℚ × Trigger)
  backendCalls : List (ℤ × ℚ)
deriving DecidableEq

/-- Embeds `clearPlayback()` — `clearTimeout` every registered timer and empty the
registry: no cleared trigger can ever fire. -/
def clearPlayback (st : PlayerState) : PlayerState :=
  { st with playbackTimers := [] }

/-- Embeds `stopPlayback()` — `isPlaying.value = false; clearPlayback()`. -/
def stopPlayback (st : PlayerState) : PlayerState :=
  clearPlayback { st with isPlaying := false }

/-- Embeds `startPlayback()` after `ensureAudio()`: a no-op unless the sampler exists
and its samples are loaded (`if (!pianoSampler || !samplerLoaded.value) return`);
otherwise clear prior timers, record the phrase start instant (`now`, ms), set
`isPlaying`, schedule one trigger per event at `ev.time * 1000` ms and the
loop-continuation trigger at `phraseDuration * 1000 + 50` ms. -/
def startPlayback (samplerExists samplerLoaded : Bool) (meter : String)
    (bpm : ℕ) (now : ℚ) (st : PlayerState) : PlayerState :=
  if !samplerExists || !samplerLoaded then st
  else
    let st := clearPlayback st
    let st := { st with phraseStart := now, isPlaying := true }
    let noteTimers := st.noteEvents.map (fun ev => (ev.time * 1000, Trigger.note ev))
    let totalMs := phraseDurationOf meter bpm * 1000
    { st with playbackTimers := noteTimers ++ [(totalMs + 50, Trigger.loop)] }

/-- The body of a fired timer callback. A note trigger re-checks the sampler
and the playing flag and then records one backend `triggerAttackRelease`
call; the loop trigger re-checks the playing flag, regenerates the phrase and
calls `startPlayback` again. -/
def fireTrigger (samplerExists samplerLoaded : Bool) (mode : Mode)
    (meter : String) (bpm difficulty : ℕ) (rand : ℕ → ℕ) (now : ℚ) :
    Trigger → PlayerState → PlayerState
  | .note ev, st =>
      if !samplerExists || !samplerLoaded || !st.isPlaying then st
      else { st with backendCalls := st.backendCalls ++ [(ev.midi, ev.duration)] }
  | .loop, st =>
      if !st.isPlaying then st
      else
        let st := { st with noteEvents := generatePhrase mode meter bpm difficulty rand }
        startPlayback samplerExists samplerLoaded meter bpm now st

/-- One event-loop step: some pending timer (it must still be registered —
`clearTimeout` removes it from the registry) is taken off the registry and
its callback body runs. The loop trigger draws fresh randomness and reads a
fresh clock, so both are chosen at fire time. -/
inductive FireStep (samplerExists samplerLoaded : Bool) (mode : Mode)
    (meter : String) (bpm difficulty : ℕ) : PlayerState → PlayerState → Prop where
  | fire (st : PlayerState) (d : ℚ) (tr : Trigger) (rand : ℕ → ℕ) (now : ℚ)
      (hmem : (d, tr) ∈ st.playbackTimers) :
      FireStep samplerExists samplerLoaded mode meter bpm difficulty st
        (fireTrigger samplerExists samplerLoaded mode meter bpm difficulty rand now tr
          { st with playbackTimers := st.playbackTimers.erase (d, tr) })

/-- All states the event loop can reach from `st` by firing pending timers. -/
def ReachableFrom (samplerExists samplerLoaded : Bool) (mode : Mode)
    (meter : String) (bpm difficulty : ℕ) (st st' : PlayerState) : Prop :=
  Relation.ReflTransGen
    (FireStep samplerExists samplerLoaded mode meter bpm difficulty) st st'

/-- Embeds the watcher `watch([bpm, selectedMeter, selectedMode, difficulty], () => { generatePhrase() })`
— the parameter-change handler regenerates the phrase (with the new
parameters) and does nothing else to the session state. -/
def paramChangeHandler (mode : Mode) (meter : String) (bpm difficulty : ℕ)
    (rand : ℕ → ℕ) (st : PlayerState) : PlayerState :=
  { st with noteEvents := generatePhrase mode meter bpm difficulty rand }

/-! ## Score encoder -/

/-- The twelve sharp-spelled pitch-class names. -/
def noteNames : List String :=
  ["C", "C#", "D", "D#", "E", "F"] ++
  ["F#", "G", "G#", "A", "A#", "B"]

/-- The `<pitch>` element of a MusicXML note: `step`, `alter`, `octave`. -/
structure XmlPitch where
  step : String
  alter : ℕ
  octave : ℤ
deriving DecidableEq

/-- Embeds `midiToXmlPitch(midi)` — `step` is the letter of the sharp-spelled name
(`name[0]`), `alter` is `1` iff the name contains a sharp, octave is
`Math.floor(midi / 12) - 1` (floor division, `Int.fdiv`). The pitch class
uses the nonnegative remainder, as JS `%` does on the nonnegative inputs the
engine produces. -/
def midiToXmlPitch (midi : ℤ) : XmlPitch :=
  let pc := (midi % 12).toNat
  let oct := Int.fdiv midi 12 - 1
  let name := noteNames.getD pc ""
  { step := String.mk (name.toList.take 1)
    alter := if name.toList.contains '#' then 1 else 0
    octave := oct }

/-- Embeds `<divisions>4</divisions>` — four divisions per quarter note. -/
def divisions : ℕ := 4

/-- One `<note>` element of the emitted document: `pitch = none` models
`<rest/>`; `duration` is in divisions; `noteType` is the `<type>` text;
`beam` the optional `<beam number="1">` text; `staff` the `<staff>` number. -/
structure XmlNote where
  pitch : Option XmlPitch
  duration : ℕ
  voice : ℕ
  noteType : String
  beam : Option String
  staff : ℕ
deriving DecidableEq

/-- The eighth rest emitted on staff 2 when a bar has no bass events. -/
def restEighth : XmlNote :=
  { pitch := none, duration := divisions / 2, voice := 1,
    noteType := "eighth", beam := none, staff := 2 }

/-- One filled `<measure>` block: the four treble beat slots on staff 1
followed by the bass group on staff 2. -/
structure Measure where
  treble : List XmlNote
  bass : List XmlNote
deriving DecidableEq

/-- The whole filled template: the verbatim tempo marking and the four
numbered measures. -/
structure ScoreDoc where
  tempo : ℕ
  measures : List Measure
deriving DecidableEq

/-- Stable insertion of an event into a time-sorted list: the new element
goes after every element whose time is `≤` its own. -/
def insertByTime (e : NoteEvent) : List NoteEvent → List NoteEvent
  | [] => [e]
  | x :: xs => if e.time < x.time then e :: x :: xs else x :: insertByTime e xs

/-- Embeds `[...].sort((a, b) => a.time - b.time)` — a stable sort by time, as JS
`Array.prototype.sort` is. -/
def sortByTime (l : List NoteEvent) : List NoteEvent :=
  l.foldl (fun acc e => insertByTime e acc) []

/-- Stable insertion into an ascending list of integers. -/
def insertIntAsc (m : ℤ) : List ℤ → List ℤ
  | [] => [m]
  | x :: xs => if m < x then m :: x :: xs else x :: insertIntAsc m xs

/-- Embeds `[...].sort((a, b) => a - b)` — ascending numeric sort. -/
def sortIntAsc (l : List ℤ) : List ℤ :=
  l.foldl (fun acc m => insertIntAsc m acc) []

/-- Embeds `buildTrebleBeatNote(bar, beat)` — find the first (time-sorted) treble
event whose onset lies in the half-open beat window; emit a quarter rest when
none exists, else a pitched quarter note on staff 1. -/
def buildTrebleBeatNote (secPerBeat : ℚ) (trebleEvents : List NoteEvent)
    (bar beat : ℕ) : XmlNote :=
  let measureStart : ℚ := ((bar : ℚ) - 1) * 4 * secPerBeat
  let bStart := measureStart + ((beat : ℚ) - 1) * secPerBeat
  let bEnd := bStart + secPerBeat
  match trebleEvents.find? (fun e => decide (e.time ≥ bStart ∧ e.time < bEnd)) with
  | none =>
      { pitch := none, duration := divisions, voice := 1,
        noteType := "quarter", beam := none, staff := 1 }
  | some ev =>
      { pitch := some (midiToXmlPitch ev.midi), duration := divisions,
        voice := 1, noteType := "quarter", beam := none, staff := 1 }

/-- The eighth-note bass render of one arpeggiation-pattern entry: beam
`begin` at index 0, `end` at the last index, `continue` between. -/
def renderBassNote (patternLength idx : ℕ) (m : ℤ) : XmlNote :=
  let beamTag : String :=
    if idx = 0 then "begin"
    else if idx = patternLength - 1 then "end"
    else "continue"
  { pitch := some (midiToXmlPitch m), duration := divisions / 2, voice := 1,
    noteType := "eighth", beam := some beamTag, staff := 2 }

/-- Embeds `pattern.forEach((m, idx) => ...)` — render every pattern entry with its
index. -/
def renderBassPatternFrom (patternLength : ℕ) : ℕ → List ℤ → List XmlNote
  | _, [] => []
  | idx, m :: ms =>
      renderBassNote patternLength idx m ::
        renderBassPatternFrom patternLength (idx + 1) ms

/-- Embeds `buildBassGroup(bar)` — collect the bass events whose `time` equals the
bar start exactly; emit four eighth rests when there are none, else sort the
pitches ascending, build the arpeggiation pattern
`[lowest, second-if-truthy, third-if-truthy, lowest-again]` (JS truthiness:
an absent or zero `pitches[i]` is skipped) and render it as beamed eighths. -/
def buildBassGroup (secPerBeat : ℚ) (bassChordStarts : List NoteEvent)
    (bar : ℕ) : List XmlNote :=
  let measureStart : ℚ := ((bar : ℚ) - 1) * 4 * secPerBeat
  let chordEvents := bassChordStarts.filter (fun e => decide (e.time = measureStart))
  if chordEvents.length = 0 then
    List.replicate 4
      { pitch := none, duration := divisions / 2, voice := 1,
        noteType := "eighth", beam := none, staff := 2 }
  else
    let pitches := sortIntAsc (chordEvents.map (fun e => e.midi))
    let p0 := pitches.headD 0
    let pattern := [p0] ++
      (if pitches.getD 1 0 ≠ 0 then [pitches.getD 1 0] else []) ++
      (if pitches.getD 2 0 ≠ 0 then [pitches.getD 2 0] else []) ++ [p0]
    renderBassPatternFrom pattern.length 0 pattern

/-- One filled `<measure>` block of the template. -/
def buildMeasure (secPerBeat : ℚ) (trebleEvents bassChordStarts : List NoteEvent)
    (bar : ℕ) : Measure :=
  { treble := [buildTrebleBeatNote secPerBeat trebleEvents bar 1,
               buildTrebleBeatNote secPerBeat trebleEvents bar 2,
               buildTrebleBeatNote secPerBeat trebleEvents bar 3,
               buildTrebleBeatNote secPerBeat trebleEvents bar 4],
    bass := buildBassGroup secPerBeat bassChordStarts bar }

/-- Embeds `buildMusicXmlFromPhrase()` — split the phrase by staff, sort each part by
time (stably), and fill the fixed four-measure two-staff template; the tempo
marking is the bpm value verbatim. -/
def buildMusicXmlFromPhrase (noteEvents : List NoteEvent) (bpm : ℕ) : ScoreDoc :=
  let secPerBeat : ℚ := 60 / (bpm : ℚ)
  let trebleEvents := sortByTime (noteEvents.filter (fun e => decide (e.staff = .treble)))
  let bassChordStarts := sortByTime (noteEvents.filter (fun e => decide (e.staff = .bass)))
  { tempo := bpm,
    measures := [buildMeasure secPerBeat trebleEvents bassChordStarts 1,
                 buildMeasure secPerBeat trebleEvents bassChordStarts 2,
                 buildMeasure secPerBeat trebleEvents bassChordStarts 3,
                 buildMeasure secPerBeat trebleEvents bassChordStarts 4] }

/-! ## Derived forms used by the proofs -/

/-- The treble pitch drawn for beat `k`: beat `k` is preceded by `(k + 3) / 4`
bar-start beats, each of which consumed one extra draw for its bass seed. -/
def trebleDraw (rand : ℕ → ℕ) (k : ℕ) : ℤ :=
  randomInt 60 84 (rand (k + (k + 3) / 4))

/-- The snapped bass root drawn for bar `b` (the draw after bar `b`'s treble
draw, at stream position `5 * b + 1`). -/
def rootDraw (mode : Mode) (rand : ℕ → ℕ) (b : ℕ) : ℤ :=
  snapToTriad (randomInt 36 60 (rand (5 * b + 1))) mode

/-- The treble event `generatePhrase` emits at beat `k` (beat seconds `s`). -/
def trebleEventAt (s : ℚ) (rand : ℕ → ℕ) (k : ℕ) : NoteEvent :=
  { time := (k : ℚ) * s, duration := s * (9 / 10), midi := trebleDraw rand k,
    staff := .treble, isChord := false }

/-- The bass event `generatePhrase` emits in bar `b` for chord tone `m`. -/
def bassEventAt (s : ℚ) (b : ℕ) (m : ℤ) : NoteEvent :=
  { time := ((4 * b : ℕ) : ℚ) * s, duration := s * 4, midi := m,
    staff := .bass, isChord := true }

/-- Bar `b`'s bass chord, as the events `generatePhrase` emits for it. -/
def barChordEvents (s : ℚ) (mode : Mode) (rand : ℕ → ℕ) (diff b : ℕ) :
    List NoteEvent :=
  (buildChord (rootDraw mode rand b) diff).map (fun m => bassEventAt s b m)

/-- A pitched quarter note on staff 1, as the encoder emits for a filled
treble beat slot. -/
def trebleQuarter (m : ℤ) : XmlNote :=
  { pitch := some (midiToXmlPitch m), duration := 4, voice := 1,
    noteType := "quarter", beam := none, staff := 1 }

/-- A pitched beamed eighth note on staff 2, as the encoder emits for one
bass arpeggiation-pattern entry. -/
def bassEighth (m : ℤ) (beamTag : String) : XmlNote :=
  { pitch := some (midiToXmlPitch m), duration := 2, voice := 1,
    noteType := "eighth", beam := some beamTag, staff := 2 }

/-- The bass group the encoder emits for a bar whose chord has root `r`:
the beamed rendering of the arpeggiation pattern
`[lowest, second-lowest, third-lowest, lowest-again]` of the sorted chord. -/
def expBassNotes (r : ℤ) (diff : ℕ) : List XmlNote :=
  if 2 ≤ diff then
    [bassEighth (r - 12) "begin", bassEighth r "continue",
     bassEighth (r + 4) "continue", bassEighth (r - 12) "end"]
  else
    [bassEighth r "begin", bassEighth (r + 4) "continue",
     bassEighth (r + 7) "continue", bassEighth r "end"]

/-- The measure the encoder emits for bar index `b` of a generated phrase:
four pitched quarter notes (one per beat) and the bar chord's beamed
eighth-note arpeggiation. -/
def expMeasure (mode : Mode) (diff : ℕ) (rand : ℕ → ℕ) (b : ℕ) : Measure :=
  { treble := [trebleQuarter (trebleDraw rand (4 * b)),
               trebleQuarter (trebleDraw rand (4 * b + 1)),
               trebleQuarter (trebleDraw rand (4 * b + 2)),
               trebleQuarter (trebleDraw rand (4 * b + 3))],
    bass := expBassNotes (rootDraw mode rand b) diff }

/-- Restates `snapToTriad` in closed form: the first-minimal scan over `[48, 53, 55]`. -/
lemma snapToTriad_eq (m : ℤ) (mode : Mode) : snapToTriad m mode =
    if (53 - m).natAbs < (48 - m).natAbs then
      (if (55 - m).natAbs < (53 - m).natAbs then 55 else 53)
    else
      (if (55 - m).natAbs < (48 - m).natAbs then 55 else 48) := by
  simp only [snapToTriad, List.foldl, apply_ite Prod.snd, apply_ite Prod.fst]
  by_cases h1 : (53 - m).natAbs < (48 - m).natAbs
  · by_cases h2 : (55 - m).natAbs < (53 - m).natAbs <;> simp [h1, h2]
  · by_cases h2 : (55 - m).natAbs < (48 - m).natAbs <;> simp [h1, h2]

lemma snap_mem (m : ℤ) (mode : Mode) :
    snapToTriad m mode ∈ ([48, 53, 55] : List ℤ) := by
  rw [snapToTriad_eq]
  split_ifs <;> simp

lemma snap_bounds (m : ℤ) (mode : Mode) :
    48 ≤ snapToTriad m mode ∧ snapToTriad m mode ≤ 55 := by
  rw [snapToTriad_eq]
  split_ifs <;> omega

lemma snap_min (m : ℤ) (mode : Mode) (t : ℤ) (ht : t ∈ ([48, 53, 55] : List ℤ)) :
    (snapToTriad m mode - m).natAbs ≤ (t - m).natAbs := by
  rw [snapToTriad_eq]
  fin_cases ht <;> split_ifs <;> omega

lemma snap_tie (m : ℤ) (mode : Mode) (t : ℤ) (ht : t ∈ ([48, 53, 55] : List ℤ))
    (h : (t - m).natAbs = (snapToTriad m mode - m).natAbs) :
    snapToTriad m mode ≤ t := by
  rw [snapToTriad_eq] at h ⊢
  fin_cases ht <;> split_ifs at h ⊢ <;> omega

lemma buildChord_length (r : ℤ) (d : ℕ) :
    (buildChord r d).length = chordSize d := by
  simp only [buildChord, chordSize]
  split_ifs <;> simp

lemma chordSize_pos (d : ℕ) : 0 < chordSize d := by
  simp only [chordSize]
  split_ifs <;> omega

lemma buildChord_mem (r : ℤ) (d : ℕ) (m : ℤ) (hm : m ∈ buildChord r d) :
    ∃ o ∈ ([0, 4, 7, -12, 11] : List ℤ), m = r + o := by
  have h2 : m - r ∈ ([0, 4, 7, -12, 11] : List ℤ) := by
    simp only [buildChord] at hm
    split_ifs at hm <;> simp at hm ⊢ <;> omega
  exact ⟨m - r, h2, by ring⟩

lemma ts_lt {s : ℚ} (hs : 0 < s) (a b : ℚ) : a * s < b * s ↔ a < b :=
  mul_lt_mul_right hs

lemma ts_le {s : ℚ} (hs : 0 < s) (a b : ℚ) : a * s ≤ b * s ↔ a ≤ b :=
  mul_le_mul_right hs

lemma ts_eq {s : ℚ} (hs : 0 < s) (a b : ℚ) : a * s = b * s ↔ a = b :=
  mul_left_inj' hs.ne'

lemma ts_lt_s {s : ℚ} (hs : 0 < s) (a : ℚ) : a * s < s ↔ a < 1 := by
  simpa using (mul_lt_mul_right hs : a * s < 1 * s ↔ a < 1)

lemma ts_s_lt {s : ℚ} (hs : 0 < s) (b : ℚ) : s < b * s ↔ 1 < b := by
  simpa using (mul_lt_mul_right hs : 1 * s < b * s ↔ 1 < b)

lemma ts_le_s {s : ℚ} (hs : 0 < s) (a : ℚ) : a * s ≤ s ↔ a ≤ 1 := by
  simpa using (mul_le_mul_right hs : a * s ≤ 1 * s ↔ a ≤ 1)

lemma ts_s_le {s : ℚ} (hs : 0 < s) (b : ℚ) : s ≤ b * s ↔ 1 ≤ b := by
  simpa using (mul_le_mul_right hs : 1 * s ≤ b * s ↔ 1 ≤ b)

lemma ts_eq_s {s : ℚ} (hs : 0 < s) (a : ℚ) : a * s = s ↔ a = 1 := by
  simpa using (mul_left_inj' hs.ne' : a * s = 1 * s ↔ a = 1)

lemma ts_s_eq {s : ℚ} (hs : 0 < s) (b : ℚ) : s = b * s ↔ 1 = b := by
  simpa using (mul_left_inj' hs.ne' : 1 * s = b * s ↔ 1 = b)

lemma ts_pos {s : ℚ} (hs : 0 < s) (b : ℚ) : 0 < b * s ↔ 0 < b := by
  simpa using (mul_lt_mul_right hs : 0 * s < b * s ↔ 0 < b)

lemma ts_neg {s : ℚ} (hs : 0 < s) (b : ℚ) : b * s < 0 ↔ b < 0 := by
  simpa using (mul_lt_mul_right hs : b * s < 0 * s ↔ b < 0)

lemma ts_le0 {s : ℚ} (hs : 0 < s) (b : ℚ) : b * s ≤ 0 ↔ b ≤ 0 := by
  simpa using (mul_le_mul_right hs : b * s ≤ 0 * s ↔ b ≤ 0)

lemma ts_0le {s : ℚ} (hs : 0 < s) (b : ℚ) : 0 ≤ b * s ↔ 0 ≤ b := by
  simpa using (mul_le_mul_right hs : 0 * s ≤ b * s ↔ 0 ≤ b)

lemma ts_eq0 {s : ℚ} (hs : 0 < s) (b : ℚ) : b * s = 0 ↔ b = 0 := by
  simpa using (mul_left_inj' hs.ne' : b * s = 0 * s ↔ b = 0)

lemma ts_0eq {s : ℚ} (hs : 0 < s) (b : ℚ) : 0 = b * s ↔ 0 = b := by
  simpa using (mul_left_inj' hs.ne' : 0 * s = b * s ↔ 0 = b)

lemma ts_s_neg {s : ℚ} (hs : 0 < s) : ¬ s < 0 := by linarith

lemma ts_s_lt0 {s : ℚ} (hs : 0 < s) : s < 0 ↔ False := by simp [ts_s_neg hs]

lemma ts_s_le0 {s : ℚ} (hs : 0 < s) : s ≤ 0 ↔ False := by
  simp [not_le.mpr hs]

lemma ts_add {s : ℚ} (a b : ℚ) : a * s + b * s = (a + b) * s := by ring

lemma ts_add_s {s : ℚ} (a : ℚ) : a * s + s = (a + 1) * s := by ring

lemma ts_s_add {s : ℚ} (b : ℚ) : s + b * s = (1 + b) * s := by ring

lemma ts_s_s {s : ℚ} : s + s = 2 * s := by ring

lemma filter_const_false {α : Type} (l : List α) :
    l.filter (fun _ => false) = [] := by
  induction l <;> simp [*]

lemma filter_const_true {α : Type} (l : List α) :
    l.filter (fun _ => true) = l := by
  induction l <;> simp [*]

/-- The listed tempos give a positive beat length. -/
lemma tempos_spb_pos {bpm : ℕ} (hb : bpm ∈ tempos) : 0 < (60 : ℚ) / bpm := by
  fin_cases hb <;> norm_num

set_option maxHeartbeats 1000000 in
/-- Expands `generatePhrase` at the fixed `4/4` meter, written out beat by beat. -/
lemma generatePhrase_expand (mode : Mode) (bpm diff : ℕ) (rand : ℕ → ℕ) :
    generatePhrase mode "4/4" bpm diff rand =
      [trebleEventAt (60 / (bpm : ℚ)) rand 0] ++
        barChordEvents (60 / (bpm : ℚ)) mode rand diff 0 ++
      [trebleEventAt (60 / (bpm : ℚ)) rand 1, trebleEventAt (60 / (bpm : ℚ)) rand 2,
       trebleEventAt (60 / (bpm : ℚ)) rand 3] ++
      [trebleEventAt (60 / (bpm : ℚ)) rand 4] ++
        barChordEvents (60 / (bpm : ℚ)) mode rand diff 1 ++
      [trebleEventAt (60 / (bpm : ℚ)) rand 5, trebleEventAt (60 / (bpm : ℚ)) rand 6,
       trebleEventAt (60 / (bpm : ℚ)) rand 7] ++
      [trebleEventAt (60 / (bpm : ℚ)) rand 8] ++
        barChordEvents (60 / (bpm : ℚ)) mode rand diff 2 ++
      [trebleEventAt (60 / (bpm : ℚ)) rand 9, trebleEventAt (60 / (bpm : ℚ)) rand 10,
       trebleEventAt (60 / (bpm : ℚ)) rand 11] ++
      [trebleEventAt (60 / (bpm : ℚ)) rand 12] ++
        barChordEvents (60 / (bpm : ℚ)) mode rand diff 3 ++
      [trebleEventAt (60 / (bpm : ℚ)) rand 13, trebleEventAt (60 / (bpm : ℚ)) rand 14,
       trebleEventAt (60 / (bpm : ℚ)) rand 15] := by
  have h4 : beatsPerBarOf "4/4" = 4 := by decide
  simp [generatePhrase, h4, phraseLengthBars, generateBeat, List.range_succ,
    trebleEventAt, bassEventAt, trebleDraw, rootDraw, barChordEvents,
    getScaleMidiRange]

set_option maxHeartbeats 1000000 in
/-- The treble part of a generated phrase: the 16 beat notes, in beat order. -/
lemma filter_treble_expand (mode : Mode) (bpm diff : ℕ) (rand : ℕ → ℕ) :
    (generatePhrase mode "4/4" bpm diff rand).filter
        (fun e => decide (e.staff = .treble)) =
      [trebleEventAt (60 / (bpm : ℚ)) rand 0, trebleEventAt (60 / (bpm : ℚ)) rand 1,
       trebleEventAt (60 / (bpm : ℚ)) rand 2, trebleEventAt (60 / (bpm : ℚ)) rand 3,
       trebleEventAt (60 / (bpm : ℚ)) rand 4, trebleEventAt (60 / (bpm : ℚ)) rand 5,
       trebleEventAt (60 / (bpm : ℚ)) rand 6, trebleEventAt (60 / (bpm : ℚ)) rand 7,
       trebleEventAt (60 / (bpm : ℚ)) rand 8, trebleEventAt (60 / (bpm : ℚ)) rand 9,
       trebleEventAt (60 / (bpm : ℚ)) rand 10, trebleEventAt (60 / (bpm : ℚ)) rand 11,
       trebleEventAt (60 / (bpm : ℚ)) rand 12, trebleEventAt (60 / (bpm : ℚ)) rand 13,
       trebleEventAt (60 / (bpm : ℚ)) rand 14, trebleEventAt (60 / (bpm : ℚ)) rand 15] := by
  rw [generatePhrase_expand]
  simp [List.filter_append, barChordEvents, List.filter_map, Function.comp_def,
    trebleEventAt, bassEventAt, filter_const_false, filter_const_true]

set_option maxHeartbeats 1000000 in
/-- The bass part of a generated phrase: the four bar chords, in bar order. -/
lemma filter_bass_expand (mode : Mode) (bpm diff : ℕ) (rand : ℕ → ℕ) :
    (generatePhrase mode "4/4" bpm diff rand).filter
        (fun e => decide (e.staff = .bass)) =
      barChordEvents (60 / (bpm : ℚ)) mode rand diff 0 ++
      barChordEvents (60 / (bpm : ℚ)) mode rand diff 1 ++
      barChordEvents (60 / (bpm : ℚ)) mode rand diff 2 ++
      barChordEvents (60 / (bpm : ℚ)) mode rand diff 3 := by
  rw [generatePhrase_expand]
  simp [List.filter_append, barChordEvents, List.filter_map, Function.comp_def,
    trebleEventAt, bassEventAt, filter_const_false, filter_const_true]

lemma insertByTime_eq_append (e : NoteEvent) (l : List NoteEvent)
    (h : ∀ x ∈ l, ¬ e.time < x.time) : insertByTime e l = l ++ [e] := by
  induction l with
  | nil => simp [insertByTime]
  | cons x xs ih =>
      simp only [insertByTime]
      rw [if_neg (h x (by simp))]
      simp [ih (fun y hy => h y (by simp [hy]))]

lemma foldl_insertByTime (l : List NoteEvent) :
    ∀ acc : List NoteEvent,
      (∀ x ∈ acc, ∀ y ∈ l, x.time ≤ y.time) →
      l.Pairwise (fun a b => a.time ≤ b.time) →
      l.foldl (fun acc e => insertByTime e acc) acc = acc ++ l := by
  induction l with
  | nil => intro acc _ _; simp
  | cons e rest ih =>
      intro acc hacc hl
      rw [List.foldl_cons,
        insertByTime_eq_append e acc (fun x hx => not_lt.mpr (hacc x hx e (by simp)))]
      have h1 : ∀ x ∈ acc ++ [e], ∀ y ∈ rest, x.time ≤ y.time := by
        intro x hx y hy
        rcases List.mem_append.mp hx with h | h
        · exact hacc x h y (by simp [hy])
        · simp at h
          subst h
          exact (List.pairwise_cons.mp hl).1 y hy
      have := ih (acc ++ [e]) h1 (List.pairwise_cons.mp hl).2
      simpa using this

/-- A list already sorted by time is left unchanged by the stable sort. -/
lemma sortByTime_eq_self (l : List NoteEvent)
    (hl : l.Pairwise (fun a b => a.time ≤ b.time)) : sortByTime l = l := by
  simpa [sortByTime] using foldl_insertByTime l [] (by simp) hl

lemma pairwise_of_all {α : Type} (R : α → α → Prop) (l : List α)
    (h : ∀ x ∈ l, ∀ y ∈ l, R x y) : l.Pairwise R := by
  induction l with
  | nil => exact List.Pairwise.nil
  | cons a t ih =>
      exact List.Pairwise.cons (fun y hy => h a (by simp) y (by simp [hy]))
        (ih (fun x hx y hy => h x (by simp [hx]) y (by simp [hy])))

lemma barChord_time (s : ℚ) (mode : Mode) (rand : ℕ → ℕ) (diff b : ℕ)
    (x : NoteEvent) (hx : x ∈ barChordEvents s mode rand diff b) :
    x.time = ((4 * b : ℕ) : ℚ) * s := by
  simp only [barChordEvents, List.mem_map] at hx
  obtain ⟨m, _, rfl⟩ := hx
  rfl

lemma barChord_staff (s : ℚ) (mode : Mode) (rand : ℕ → ℕ) (diff b : ℕ)
    (x : NoteEvent) (hx : x ∈ barChordEvents s mode rand diff b) :
    x.staff = .bass := by
  simp only [barChordEvents, List.mem_map] at hx
  obtain ⟨m, _, rfl⟩ := hx
  rfl

lemma barChord_duration (s : ℚ) (mode : Mode) (rand : ℕ → ℕ) (diff b : ℕ)
    (x : NoteEvent) (hx : x ∈ barChordEvents s mode rand diff b) :
    x.duration = s * 4 := by
  simp only [barChordEvents, List.mem_map] at hx
  obtain ⟨m, _, rfl⟩ := hx
  rfl

lemma barChord_length (s : ℚ) (mode : Mode) (rand : ℕ → ℕ) (diff b : ℕ) :
    (barChordEvents s mode rand diff b).length = chordSize diff := by
  simp [barChordEvents, buildChord_length]

set_option maxHeartbeats 1000000 in
/-- The encoder's time-sorted treble list for a generated phrase: the beat
notes are already in time order, so the stable sort returns them unchanged. -/
lemma sorted_filter_treble (mode : Mode) (bpm diff : ℕ) (rand : ℕ → ℕ)
    (hs : 0 < (60 : ℚ) / bpm) :
    sortByTime ((generatePhrase mode "4/4" bpm diff rand).filter
        (fun e => decide (e.staff = .treble))) =
      [trebleEventAt (60 / (bpm : ℚ)) rand 0, trebleEventAt (60 / (bpm : ℚ)) rand 1,
       trebleEventAt (60 / (bpm : ℚ)) rand 2, trebleEventAt (60 / (bpm : ℚ)) rand 3,
       trebleEventAt (60 / (bpm : ℚ)) rand 4, trebleEventAt (60 / (bpm : ℚ)) rand 5,
       trebleEventAt (60 / (bpm : ℚ)) rand 6, trebleEventAt (60 / (bpm : ℚ)) rand 7,
       trebleEventAt (60 / (bpm : ℚ)) rand 8, trebleEventAt (60 / (bpm : ℚ)) rand 9,
       trebleEventAt (60 / (bpm : ℚ)) rand 10, trebleEventAt (60 / (bpm : ℚ)) rand 11,
       trebleEventAt (60 / (bpm : ℚ)) rand 12, trebleEventAt (60 / (bpm : ℚ)) rand 13,
       trebleEventAt (60 / (bpm : ℚ)) rand 14, trebleEventAt (60 / (bpm : ℚ)) rand 15] := by
  rw [filter_treble_expand]
  apply sortByTime_eq_self
  norm_num [List.pairwise_cons, trebleEventAt, ts_le hs, ts_le_s hs, ts_s_le hs,
    ts_0le hs, hs.le]

lemma barChord_cross (s : ℚ) (mode : Mode) (rand : ℕ → ℕ) (diff : ℕ)
    (hs : 0 < s) (b b' : ℕ) (hbb : b ≤ b') :
    ∀ x ∈ barChordEvents s mode rand diff b,
      ∀ y ∈ barChordEvents s mode rand diff b', x.time ≤ y.time := by
  intro x hx y hy
  rw [barChord_time s mode rand diff b x hx, barChord_time s mode rand diff b' y hy,
    ts_le hs]
  have h4 : (4 * b : ℕ) ≤ 4 * b' := by omega
  exact_mod_cast h4

/-- The encoder's time-sorted bass list for a generated phrase: the four bar
chords are already in time order, so the stable sort returns them unchanged. -/
lemma sorted_filter_bass (mode : Mode) (bpm diff : ℕ) (rand : ℕ → ℕ)
    (hs : 0 < (60 : ℚ) / bpm) :
    sortByTime ((generatePhrase mode "4/4" bpm diff rand).filter
        (fun e => decide (e.staff = .bass))) =
      barChordEvents (60 / (bpm : ℚ)) mode rand diff 0 ++
      barChordEvents (60 / (bpm : ℚ)) mode rand diff 1 ++
      barChordEvents (60 / (bpm : ℚ)) mode rand diff 2 ++
      barChordEvents (60 / (bpm : ℚ)) mode rand diff 3 := by
  rw [filter_bass_expand]
  apply sortByTime_eq_self
  have hgrp : ∀ b, (barChordEvents (60 / (bpm : ℚ)) mode rand diff b).Pairwise
      (fun a c => a.time ≤ c.time) := by
    intro b
    apply pairwise_of_all
    intro x hx y hy
    rw [barChord_time _ mode rand diff b x hx, barChord_time _ mode rand diff b y hy]
  have hc := barChord_cross (60 / (bpm : ℚ)) mode rand diff hs
  refine List.pairwise_append.mpr ⟨List.pairwise_append.mpr
    ⟨List.pairwise_append.mpr ⟨hgrp 0, hgrp 1, hc 0 1 (by norm_num)⟩, hgrp 2, ?_⟩,
    hgrp 3, ?_⟩
  · intro x hx y hy
    rcases List.mem_append.mp hx with h | h
    · exact hc 0 2 (by norm_num) x h y hy
    · exact hc 1 2 (by norm_num) x h y hy
  · intro x hx y hy
    rcases List.mem_append.mp hx with h | h
    · rcases List.mem_append.mp h with h2 | h2
      · exact hc 0 3 (by norm_num) x h2 y hy
      · exact hc 1 3 (by norm_num) x h2 y hy
    · exact hc 2 3 (by norm_num) x h y hy

lemma sortIntAsc_chord_one (r : ℤ) : sortIntAsc (buildChord r 1) = [r, r + 4, r + 7] := by
  have h1 : ¬(r + 4 < r) := by omega
  have h2 : ¬(r + 7 < r) := by omega
  have h3 : ¬(r + 7 < r + 4) := by omega
  simp [sortIntAsc, buildChord, insertIntAsc, h1, h2, h3]

lemma sortIntAsc_chord_two (r : ℤ) :
    sortIntAsc (buildChord r 2) = [r - 12, r, r + 4, r + 7] := by
  have h1 : ¬(r + 4 < r) := by omega
  have h2 : ¬(r + 7 < r) := by omega
  have h3 : ¬(r + 7 < r + 4) := by omega
  have h4 : r - 12 < r := by omega
  simp [sortIntAsc, buildChord, insertIntAsc, h1, h2, h3, h4]

lemma sortIntAsc_chord_three (r : ℤ) :
    sortIntAsc (buildChord r 3) = [r - 12, r, r + 4, r + 7, r + 11] := by
  have h1 : ¬(r + 4 < r) := by omega
  have h2 : ¬(r + 7 < r) := by omega
  have h3 : ¬(r + 7 < r + 4) := by omega
  have h4 : r - 12 < r := by omega
  have h5 : ¬(r + 11 < r - 12) := by omega
  have h6 : ¬(r + 11 < r) := by omega
  have h7 : ¬(r + 11 < r + 4) := by omega
  have h8 : ¬(r + 11 < r + 7) := by omega
  simp [sortIntAsc, buildChord, insertIntAsc, h1, h2, h3, h4, h5, h6, h7, h8]

set_option maxHeartbeats 4000000 in
/-- For every generated phrase, the encoder's output document in closed form:
the verbatim tempo and, per bar, four pitched quarter notes and the four
beamed eighths of the bar chord's arpeggiation pattern — no rests anywhere. -/
lemma doc_expand (mode : Mode) (bpm diff : ℕ) (rand : ℕ → ℕ)
    (hs : 0 < (60 : ℚ) / bpm) (hd : diff ∈ ([1, 2, 3] : List ℕ)) :
    buildMusicXmlFromPhrase (generatePhrase mode "4/4" bpm diff rand) bpm =
      { tempo := bpm,
        measures := [expMeasure mode diff rand 0, expMeasure mode diff rand 1,
                     expMeasure mode diff rand 2, expMeasure mode diff rand 3] } := by
  have hr0 : 48 ≤ rootDraw mode rand 0 ∧ rootDraw mode rand 0 ≤ 55 := snap_bounds _ _
  have hr1 : 48 ≤ rootDraw mode rand 1 ∧ rootDraw mode rand 1 ≤ 55 := snap_bounds _ _
  have hr2 : 48 ≤ rootDraw mode rand 2 ∧ rootDraw mode rand 2 ≤ 55 := snap_bounds _ _
  have hr3 : 48 ≤ rootDraw mode rand 3 ∧ rootDraw mode rand 3 ≤ 55 := snap_bounds _ _
  have hn00 : rootDraw mode rand 0 ≠ 0 := by omega
  have hn01 : rootDraw mode rand 0 + 4 ≠ 0 := by omega
  have hn02 : rootDraw mode rand 0 + 7 ≠ 0 := by omega
  have hn10 : rootDraw mode rand 1 ≠ 0 := by omega
  have hn11 : rootDraw mode rand 1 + 4 ≠ 0 := by omega
  have hn12 : rootDraw mode rand 1 + 7 ≠ 0 := by omega
  have hn20 : rootDraw mode rand 2 ≠ 0 := by omega
  have hn21 : rootDraw mode rand 2 + 4 ≠ 0 := by omega
  have hn22 : rootDraw mode rand 2 + 7 ≠ 0 := by omega
  have hn30 : rootDraw mode rand 3 ≠ 0 := by omega
  have hn31 : rootDraw mode rand 3 + 4 ≠ 0 := by omega
  have hn32 : rootDraw mode rand 3 + 7 ≠ 0 := by omega
  simp only [buildMusicXmlFromPhrase]
  rw [sorted_filter_treble mode bpm diff rand hs, sorted_filter_bass mode bpm diff rand hs]
  fin_cases hd <;>
    norm_num [buildMeasure, buildTrebleBeatNote, buildBassGroup, List.find?,
      trebleEventAt, barChordEvents, bassEventAt, List.filter_append,
      List.filter_map, Function.comp_def, filter_const_false, filter_const_true,
      List.map_map, sortIntAsc_chord_one, sortIntAsc_chord_two, sortIntAsc_chord_three,
      renderBassPatternFrom, renderBassNote, expMeasure, expBassNotes,
      trebleQuarter, bassEighth, divisions, buildChord_length, chordSize,
      hn00, hn01, hn02, hn10, hn11, hn12, hn20, hn21, hn22, hn30, hn31, hn32,
      ts_lt hs, ts_le hs, ts_eq hs, ts_lt_s hs, ts_s_lt hs, ts_le_s hs,
      ts_s_le hs, ts_eq_s hs, ts_s_eq hs, ts_pos hs, ts_neg hs, ts_le0 hs,
      ts_0le hs, ts_eq0 hs, ts_0eq hs, ts_s_lt0 hs, ts_s_le0 hs, hs, hs.le,
      ts_add, ts_add_s, ts_s_add, ts_s_s]

lemma randomInt_mem (lo hi : ℤ) (r : ℕ) (h : lo ≤ hi) :
    lo ≤ randomInt lo hi r ∧ randomInt lo hi r ≤ hi := by
  unfold randomInt
  have hpos : (0 : ℤ) < hi - lo + 1 := by omega
  have h1 : 0 ≤ (r : ℤ) % (hi - lo + 1) := Int.emod_nonneg _ (by omega)
  have h2 : (r : ℤ) % (hi - lo + 1) < hi - lo + 1 := Int.emod_lt_of_pos _ hpos
  omega

/-- From a state whose timer registry is empty, the event loop cannot move. -/
lemma reachable_of_empty_timers (se sl : Bool) (mode : Mode) (meter : String)
    (bpm difficulty : ℕ) (st st' : PlayerState)
    (ht : st.playbackTimers = [])
    (h : ReachableFrom se sl mode meter bpm difficulty st st') : st' = st := by
  rcases Relation.ReflTransGen.cases_head h with h0 | ⟨c, hstep, _⟩
  · exact h0.symm
  · cases hstep with
    | fire d tr rand now hmem => exact absurd hmem (by simp [ht])

/-! ## Claim theorems -/

/-- C4: for every integer seed, `snapToTriad` returns a member of
`{48, 53, 55}` of minimal absolute distance to the seed, ties going to the
earlier-listed (numerically smaller) root; in particular seed `54`, exactly
between `53` and `55`, snaps to `53`. -/
theorem claim4_snap_nearest (m : ℤ) (mode : Mode) :
    snapToTriad m mode ∈ ([48, 53, 55] : List ℤ) ∧
    (∀ t ∈ ([48, 53, 55] : List ℤ),
      (snapToTriad m mode - m).natAbs ≤ (t - m).natAbs) ∧
    (∀ t ∈ ([48, 53, 55] : List ℤ),
      (t - m).natAbs = (snapToTriad m mode - m).natAbs → snapToTriad m mode ≤ t) ∧
    snapToTriad 54 mode = 53 :=
  ⟨snap_mem m mode, fun t ht => snap_min m mode t ht,
    fun t ht h => snap_tie m mode t ht h, by rw [snapToTriad_eq]; decide⟩

/-- Witness for C4 at the tie seed `54`: `53` is returned, its distance is
minimal against root `55`, and the tie at `55` resolves downwards. -/
theorem claim4_witness :
    snapToTriad 54 .C_MAJOR ∈ ([48, 53, 55] : List ℤ) ∧
    (snapToTriad 54 .C_MAJOR - 54).natAbs ≤ ((55 : ℤ) - 54).natAbs ∧
    snapToTriad 54 .C_MAJOR ≤ 55 :=
  ⟨(claim4_snap_nearest 54 .C_MAJOR).1,
   (claim4_snap_nearest 54 .C_MAJOR).2.1 55 (by decide),
   (claim4_snap_nearest 54 .C_MAJOR).2.2.1 55 (by decide) (by decide)⟩

/-- C7: on a tick the tracker yields `∅` when idle; when playing, membership
in the active set is exactly having some event whose closed interval
`[time, time + duration]` contains `elapsed`; on the single event
`{time 0, duration 1, pitch 60}` the set is `{60}` at elapsed `0.5` and at
the closed boundary `1`, and `∅` at `1.5`. -/
theorem claim7_active_notes :
    (∀ (events : List NoteEvent) (elapsed : ℚ),
      updateActiveNotes false events elapsed = ∅) ∧
    (∀ (events : List NoteEvent) (elapsed : ℚ) (m : ℤ),
      m ∈ updateActiveNotes true events elapsed ↔
        ∃ e ∈ events, e.midi = m ∧ e.time ≤ elapsed ∧ elapsed ≤ e.time + e.duration) ∧
    updateActiveNotes true [⟨0, 1, 60, .treble, false⟩] (1 / 2) = {60} ∧
    updateActiveNotes true [⟨0, 1, 60, .treble, false⟩] 1 = {60} ∧
    updateActiveNotes true [⟨0, 1, 60, .treble, false⟩] (3 / 2) = ∅ := by
  refine ⟨fun events elapsed => by simp [updateActiveNotes], ?_, ?_, ?_, ?_⟩
  · intro events elapsed m
    simp [updateActiveNotes, List.mem_filter, List.mem_map, decide_eq_true_eq]
    constructor
    · rintro ⟨e, ⟨he, h1, h2⟩, rfl⟩
      exact ⟨e, he, rfl, h1, h2⟩
    · rintro ⟨e, he, rfl, h1, h2⟩
      exact ⟨e, ⟨he, h1, h2⟩, rfl⟩
  · norm_num [updateActiveNotes]
  · norm_num [updateActiveNotes]
  · norm_num [updateActiveNotes]

/-- C9 counterexample: while playing with a negative elapsed time the
reported progress is negative — strictly below the claimed clamp to
`[0, 1]`, whose value here is `0`. -/
theorem claim9_counterexample :
    updateProgress true (-1) (48 / 5) < 0 ∧
    updateProgress true (-1) (48 / 5) ≠ max 0 (min ((-1) / (48 / 5 : ℚ)) 1) := by
  norm_num [updateProgress]

/-- C9 amended: progress is `0` when idle; when playing it is
`min (elapsed / phraseDuration) 1` — only the upper bound is clamped — and it
agrees with `clamp (elapsed / phraseDuration) 0 1` whenever `elapsed ≥ 0` and
the phrase duration is positive. -/
theorem claim9_progress_clamped :
    (∀ e d : ℚ, updateProgress false e d = 0) ∧
    (∀ e d : ℚ, updateProgress true e d = min (e / d) 1) ∧
    (∀ e d : ℚ, 0 ≤ e → 0 < d →
      updateProgress true e d = max 0 (min (e / d) 1)) := by
  have h2 : ∀ e d : ℚ, updateProgress true e d = min (e / d) 1 := by
    intro e d
    have hform : updateProgress true e d = if 1 < e / d then 1 else e / d := by
      simp [updateProgress]
    rw [hform]
    split_ifs with h
    · exact (min_eq_right h.le).symm
    · exact (min_eq_left (not_lt.mp h)).symm
  refine ⟨fun e d => by simp [updateProgress], h2, ?_⟩
  intro e d he hd
  rw [h2 e d]
  exact (max_eq_right (le_min (div_nonneg he hd.le) zero_le_one)).symm

/-- Witness for C9's amended clamp equation at `elapsed = 3`, duration `2`. -/
theorem claim9_witness :
    updateProgress true 3 2 = max 0 (min ((3 : ℚ) / 2) 1) :=
  claim9_progress_clamped.2.2 3 2 (by norm_num) (by norm_num)

/-- C6: when the sampler is absent or its samples are not loaded, `start()`
returns the session state unchanged — no `isPlaying` transition, no
`phraseStart` update, no scheduled trigger. -/
theorem claim6_start_not_ready_noop (samplerExists samplerLoaded : Bool)
    (meter : String) (bpm : ℕ) (now : ℚ) (st : PlayerState)
    (h : samplerExists = false ∨ samplerLoaded = false) :
    startPlayback samplerExists samplerLoaded meter bpm now st = st := by
  rcases h with h | h <;> subst h <;> simp [startPlayback]

/-- Witness for C6: a not-loaded sampler leaves a concrete state untouched. -/
theorem claim6_witness :
    startPlayback true false "4/4" 100 0
        ⟨[], 0, false, [], []⟩ = (⟨[], 0, false, [], []⟩ : PlayerState) :=
  claim6_start_not_ready_noop true false "4/4" 100 0 _ (Or.inr rfl)

/-- C5: after `stop()` the timer registry is empty, so no previously
scheduled trigger (note or loop) can ever fire: every event-loop run from the
stopped state leaves it unchanged — in particular the backend receives no
further `triggerAttackRelease` call — and `stop()` is idempotent and safe
when already idle. -/
theorem claim5_stop_cancels_all :
    (∀ (se sl : Bool) (mode : Mode) (meter : String) (bpm difficulty : ℕ)
        (st st' : PlayerState),
      ReachableFrom se sl mode meter bpm difficulty (stopPlayback st) st' →
        st'.backendCalls = st.backendCalls ∧ st'.playbackTimers = [] ∧
        st'.isPlaying = false) ∧
    (∀ st : PlayerState, stopPlayback (stopPlayback st) = stopPlayback st) := by
  constructor
  · intro se sl mode meter bpm difficulty st st' h
    have heq := reachable_of_empty_timers se sl mode meter bpm difficulty
      (stopPlayback st) st' rfl h
    subst heq
    exact ⟨rfl, rfl, rfl⟩
  · intro st
    rfl

/-- Witness for C5: stopping a playing state with one pending note trigger
and the loop trigger; no step having occurred, the backend trace is
unchanged, the registry is empty and the state is idle. -/
theorem claim5_witness :
    (stopPlayback ⟨[], 0, true, [(0, .note ⟨0, 1, 60, .treble, false⟩), (50, .loop)], []⟩).backendCalls =
      (⟨[], 0, true, [(0, .note ⟨0, 1, 60, .treble, false⟩), (50, .loop)], []⟩ : PlayerState).backendCalls ∧
    (stopPlayback ⟨[], 0, true, [(0, .note ⟨0, 1, 60, .treble, false⟩), (50, .loop)], []⟩).playbackTimers = [] ∧
    (stopPlayback ⟨[], 0, true, [(0, .note ⟨0, 1, 60, .treble, false⟩), (50, .loop)], []⟩).isPlaying = false :=
  claim5_stop_cancels_all.1 false false .C_MAJOR "4/4" 100 1 _ _ Relation.ReflTransGen.refl

/-- C1 counterexample: in a playing state with one pending trigger, the
parameter-change handler leaves `isPlaying` true and the trigger pending — it
does not stop playback. -/
theorem claim1_counterexample :
    ¬ (((paramChangeHandler .C_MAJOR "4/4" 100 1 (fun _ => 0)
          ⟨[], 0, true, [(50, .loop)], []⟩).isPlaying = false) ∧
       (paramChangeHandler .C_MAJOR "4/4" 100 1 (fun _ => 0)
          ⟨[], 0, true, [(50, .loop)], []⟩).playbackTimers = []) := by
  simp [paramChangeHandler]

/-- C1 amended: the parameter-change handler regenerates the phrase with the
new parameters but leaves the rest of the session untouched: `isPlaying`, the
pending triggers, and the phrase start instant are unchanged (playback is not
stopped; the engine relies on the explicit stop button for that). -/
theorem claim1_param_change_only_regenerates (mode : Mode) (meter : String)
    (bpm difficulty : ℕ) (rand : ℕ → ℕ) (st : PlayerState) :
    (paramChangeHandler mode meter bpm difficulty rand st).noteEvents =
      generatePhrase mode meter bpm difficulty rand ∧
    (paramChangeHandler mode meter bpm difficulty rand st).isPlaying = st.isPlaying ∧
    (paramChangeHandler mode meter bpm difficulty rand st).playbackTimers =
      st.playbackTimers ∧
    (paramChangeHandler mode meter bpm difficulty rand st).phraseStart =
      st.phraseStart ∧
    (paramChangeHandler mode meter bpm difficulty rand st).backendCalls =
      st.backendCalls :=
  ⟨rfl, rfl, rfl, rfl, rfl⟩

set_option maxHeartbeats 2000000 in
/-- C3: for every mode, listed tempo and difficulty in `{1, 2, 3}`, a
generated phrase has exactly `4 × 4 = 16` treble events and exactly `4`
bass-chord groups — one per bar, at the bar-start time `4·b` beats — each of
`3 + (1 if difficulty ≥ 2) + (1 if difficulty ≥ 3)` notes sharing that time
and the whole-bar duration `secondsPerBeat × beatsPerBar`; the total bass
count is exactly the four groups' worth. -/
theorem claim3_generate_counts (mode : Mode) (bpm diff : ℕ) (rand : ℕ → ℕ)
    (hb : bpm ∈ tempos) (hd : diff ∈ ([1, 2, 3] : List ℕ)) :
    ((generatePhrase mode "4/4" bpm diff rand).filter
        (fun e => decide (e.staff = .treble))).length = 4 * 4 ∧
    ((generatePhrase mode "4/4" bpm diff rand).filter
        (fun e => decide (e.staff = .bass))).length =
      4 * (3 + (if 2 ≤ diff then 1 else 0) + (if 3 ≤ diff then 1 else 0)) ∧
    ∀ b ∈ ([0, 1, 2, 3] : List ℕ),
      ((generatePhrase mode "4/4" bpm diff rand).filter
          (fun e => decide (e.staff = .bass ∧
            e.time = ((4 * b : ℕ) : ℚ) * (60 / (bpm : ℚ)) ∧
            e.duration = (60 / (bpm : ℚ)) * 4))).length =
        3 + (if 2 ≤ diff then 1 else 0) + (if 3 ≤ diff then 1 else 0) := by
  have hs : 0 < (60 : ℚ) / bpm := tempos_spb_pos hb
  refine ⟨?_, ?_, ?_⟩
  · rw [filter_treble_expand]
    simp
  · rw [filter_bass_expand]
    simp only [List.length_append, barChord_length, chordSize]
    ring
  · intro b hb'
    fin_cases hb' <;>
    · rw [generatePhrase_expand]
      simp [List.filter_append, barChordEvents, List.filter_map,
        Function.comp_def, filter_const_false, filter_const_true,
        trebleEventAt, bassEventAt, buildChord_length, chordSize,
        ts_eq hs, ts_eq_s hs, ts_s_eq hs, ts_eq0 hs, ts_0eq hs]

/-- Witness for C3 at mode C major, tempo 100, difficulty 2: the treble
count is 16. -/
theorem claim3_witness :
    ((generatePhrase .C_MAJOR "4/4" 100 2 (fun _ => 0)).filter
        (fun e => decide (e.staff = .treble))).length = 4 * 4 :=
  (claim3_generate_counts .C_MAJOR 100 2 (fun _ => 0) (by decide) (by decide)).1

/-- C8: every generated treble pitch lies in `[60, 84]`; every generated bass
pitch is `root + o` for a triad root in `{48, 53, 55}` and an offset in
`{0, 4, 7, −12, 11}`; and neither the per-staff drawn ranges nor the triad
snap depend on the mode. -/
theorem claim8_pitch_ranges :
    (∀ (mode : Mode) (bpm diff : ℕ) (rand : ℕ → ℕ),
      ∀ e ∈ generatePhrase mode "4/4" bpm diff rand,
        (e.staff = .treble → 60 ≤ e.midi ∧ e.midi ≤ 84) ∧
        (e.staff = .bass → ∃ root ∈ ([48, 53, 55] : List ℤ),
          ∃ o ∈ ([0, 4, 7, -12, 11] : List ℤ), e.midi = root + o)) ∧
    (∀ (m1 m2 : Mode) (staff : Staff),
      getScaleMidiRange m1 staff = getScaleMidiRange m2 staff) ∧
    (∀ (m1 m2 : Mode) (x : ℤ), snapToTriad x m1 = snapToTriad x m2) := by
  refine ⟨?_, fun m1 m2 staff => rfl, fun m1 m2 x => rfl⟩
  intro mode bpm diff rand e he
  have htre : ∀ k : ℕ,
      ((trebleEventAt (60 / (bpm : ℚ)) rand k).staff = .treble →
        60 ≤ (trebleEventAt (60 / (bpm : ℚ)) rand k).midi ∧
          (trebleEventAt (60 / (bpm : ℚ)) rand k).midi ≤ 84) ∧
      ((trebleEventAt (60 / (bpm : ℚ)) rand k).staff = .bass →
        ∃ root ∈ ([48, 53, 55] : List ℤ),
          ∃ o ∈ ([0, 4, 7, -12, 11] : List ℤ),
            (trebleEventAt (60 / (bpm : ℚ)) rand k).midi = root + o) := by
    intro k
    constructor
    · intro _
      simpa [trebleEventAt, trebleDraw] using
        randomInt_mem 60 84 (rand (k + (k + 3) / 4)) (by norm_num)
    · intro hsta
      exact absurd hsta (by simp [trebleEventAt])
  have hbas : ∀ (b : ℕ) (m : ℤ), m ∈ buildChord (rootDraw mode rand b) diff →
      ((bassEventAt (60 / (bpm : ℚ)) b m).staff = .treble →
        60 ≤ (bassEventAt (60 / (bpm : ℚ)) b m).midi ∧
          (bassEventAt (60 / (bpm : ℚ)) b m).midi ≤ 84) ∧
      ((bassEventAt (60 / (bpm : ℚ)) b m).staff = .bass →
        ∃ root ∈ ([48, 53, 55] : List ℤ),
          ∃ o ∈ ([0, 4, 7, -12, 11] : List ℤ),
            (bassEventAt (60 / (bpm : ℚ)) b m).midi = root + o) := by
    intro b m hm
    constructor
    · intro hsta
      exact absurd hsta (by simp [bassEventAt])
    · intro _
      obtain ⟨o, ho, rfl⟩ := buildChord_mem _ _ _ hm
      exact ⟨rootDraw mode rand b, snap_mem _ _, o, ho, by simp [bassEventAt]⟩
  rw [generatePhrase_expand] at he
  simp only [List.mem_append, List.mem_cons, List.mem_singleton,
    List.not_mem_nil, or_false, barChordEvents, List.mem_map] at he
  casesm* _ ∨ _, Exists _, _ ∧ _
  all_goals subst_vars
  all_goals first
    | exact htre _
    | exact hbas _ _ ‹_›

/-- Witness for C8 on the first treble event of a concrete phrase. -/
theorem claim8_witness :
    60 ≤ (trebleEventAt (60 / ((100 : ℕ) : ℚ)) (fun _ => 0) 0).midi ∧
      (trebleEventAt (60 / ((100 : ℕ) : ℚ)) (fun _ => 0) 0).midi ≤ 84 :=
  (claim8_pitch_ranges.1 .C_MAJOR 100 1 (fun _ => 0) _
      (by rw [generatePhrase_expand]; simp)).1 (by simp [trebleEventAt])

/-- C2 counterexample: for a generated phrase at tempo 100 (difficulty 1),
the encoded document has a bass group whose durations sum to 8 divisions —
half a 4/4 bar at `divisions = 4` — not the claimed 16 of a full bar. -/
theorem claim2_counterexample :
    ∃ meas ∈ (buildMusicXmlFromPhrase
        (generatePhrase .C_MAJOR "4/4" 100 1 (fun _ => 0)) 100).measures,
      (meas.bass.map (fun n => n.duration)).sum ≠ 16 := by
  rw [doc_expand .C_MAJOR 100 1 (fun _ => 0) (by norm_num) (by decide)]
  refine ⟨expMeasure .C_MAJOR 1 (fun _ => 0) 0, by simp, ?_⟩
  norm_num [expMeasure, expBassNotes, bassEighth]

/-- C2 amended: every bass group of an encoded generated phrase consists of
exactly 4 eighth notes whose durations sum to 8 divisions (half a 4/4 bar at
`divisions = 4`); and for a bar with no bass events the emitted group is four
eighth rests, likewise summing to half a bar of silence. -/
theorem claim2_bass_group_half_bar :
    (∀ (mode : Mode) (bpm diff : ℕ) (rand : ℕ → ℕ),
      bpm ∈ tempos → diff ∈ ([1, 2, 3] : List ℕ) →
      ∀ meas ∈ (buildMusicXmlFromPhrase
          (generatePhrase mode "4/4" bpm diff rand) bpm).measures,
        meas.bass.length = 4 ∧ (meas.bass.map (fun n => n.duration)).sum = 8) ∧
    (∀ (s : ℚ) (events : List NoteEvent) (bar : ℕ),
      events.filter (fun e => decide (e.time = ((bar : ℚ) - 1) * 4 * s)) = [] →
        buildBassGroup s events bar = List.replicate 4 restEighth ∧
        ((buildBassGroup s events bar).map (fun n => n.duration)).sum = 8) := by
  constructor
  · intro mode bpm diff rand hb hd meas hm
    have hs := tempos_spb_pos hb
    rw [doc_expand mode bpm diff rand hs hd] at hm
    simp at hm
    rcases hm with rfl | rfl | rfl | rfl <;>
      constructor <;>
      · simp only [expMeasure, expBassNotes]
        split_ifs <;> simp [bassEighth]
  · intro s events bar hempty
    constructor
    · simp [buildBassGroup, hempty, divisions, restEighth]
    · simp [buildBassGroup, hempty, divisions, restEighth, List.map_replicate,
        List.sum_replicate, smul_eq_mul]

/-- Witness for C2's amended statement at mode C major, tempo 100,
difficulty 1, on the first measure. -/
theorem claim2_witness :
    (expMeasure .C_MAJOR 1 (fun _ => 0) 0).bass.length = 4 ∧
    ((expMeasure .C_MAJOR 1 (fun _ => 0) 0).bass.map (fun n => n.duration)).sum = 8 :=
  claim2_bass_group_half_bar.1 .C_MAJOR 100 1 (fun _ => 0) (by decide) (by decide) _
    (by rw [doc_expand .C_MAJOR 100 1 (fun _ => 0) (by norm_num) (by decide)]; simp)

set_option maxHeartbeats 4000000 in
/-- C10: for every generated phrase the encoder emits no rests. Each of the
16 beat windows `[k·s, (k+1)·s)` contains exactly one treble event, rendered
as a pitched quarter note; the whole document equals the closed form whose
bass groups are exactly 4 beamed eighth notes; each group follows the
pattern `[lowest, second-lowest, third-lowest, lowest-again]` of the
ascending-sorted bar chord, beamed `begin/continue/continue/end`. -/
theorem claim10_encoder_no_rests (mode : Mode) (bpm diff : ℕ) (rand : ℕ → ℕ)
    (hb : bpm ∈ tempos) (hd : diff ∈ ([1, 2, 3] : List ℕ)) :
    (∀ k ∈ ([0, 1, 2, 3, 4, 5, 6, 7, 8, 9, 10, 11, 12, 13, 14, 15] : List ℕ),
      ((generatePhrase mode "4/4" bpm diff rand).filter (fun e =>
          decide (e.staff = .treble ∧ (k : ℚ) * (60 / (bpm : ℚ)) ≤ e.time ∧
            e.time < (k : ℚ) * (60 / (bpm : ℚ)) + 60 / (bpm : ℚ)))).length = 1) ∧
    buildMusicXmlFromPhrase (generatePhrase mode "4/4" bpm diff rand) bpm =
      { tempo := bpm,
        measures := [expMeasure mode diff rand 0, expMeasure mode diff rand 1,
                     expMeasure mode diff rand 2, expMeasure mode diff rand 3] } ∧
    (∀ meas ∈ (buildMusicXmlFromPhrase
        (generatePhrase mode "4/4" bpm diff rand) bpm).measures,
      meas.treble.length = 4 ∧
      (∀ n ∈ meas.treble, n.pitch ≠ none ∧ n.noteType = "quarter" ∧
        n.duration = 4 ∧ n.staff = 1) ∧
      meas.bass.length = 4 ∧
      (∀ n ∈ meas.bass, n.pitch ≠ none ∧ n.noteType = "eighth" ∧
        n.duration = 2 ∧ n.staff = 2) ∧
      meas.bass.map (fun n => n.beam) =
        [some "begin", some "continue", some "continue", some "end"]) ∧
    (∀ b ∈ ([0, 1, 2, 3] : List ℕ),
      expBassNotes (rootDraw mode rand b) diff =
        [bassEighth ((sortIntAsc (buildChord (rootDraw mode rand b) diff)).headD 0) "begin",
         bassEighth ((sortIntAsc (buildChord (rootDraw mode rand b) diff)).getD 1 0) "continue",
         bassEighth ((sortIntAsc (buildChord (rootDraw mode rand b) diff)).getD 2 0) "continue",
         bassEighth ((sortIntAsc (buildChord (rootDraw mode rand b) diff)).headD 0) "end"]) := by
  have hs : 0 < (60 : ℚ) / bpm := tempos_spb_pos hb
  refine ⟨?_, doc_expand mode bpm diff rand hs hd, ?_, ?_⟩
  · intro k hk
    fin_cases hk <;>
    · rw [generatePhrase_expand]
      norm_num [List.filter_append, barChordEvents, List.filter_map,
        Function.comp_def, filter_const_false, filter_const_true,
        trebleEventAt, bassEventAt,
        ts_lt hs, ts_le hs, ts_lt_s hs, ts_s_lt hs, ts_le_s hs, ts_s_le hs,
        ts_pos hs, ts_neg hs, ts_le0 hs, ts_0le hs, ts_s_lt0 hs, ts_s_le0 hs,
        hs, hs.le, ts_add, ts_add_s, ts_s_add, ts_s_s]
      all_goals simp
  · intro meas hm
    rw [doc_expand mode bpm diff rand hs hd] at hm
    simp at hm
    rcases hm with rfl | rfl | rfl | rfl <;>
      refine ⟨by simp [expMeasure], ?_, ?_, ?_, ?_⟩ <;>
        simp only [expMeasure, expBassNotes] <;>
        first
          | (split_ifs <;> simp [bassEighth])
          | simp [trebleQuarter]
  · intro b hb'
    fin_cases hd <;> fin_cases hb' <;>
      simp [sortIntAsc_chord_one, sortIntAsc_chord_two, sortIntAsc_chord_three,
        expBassNotes, List.getD]

/-- Witness for C10 at mode C major, tempo 100, difficulty 1: the first beat
window contains exactly one treble event. -/
theorem claim10_witness :
    ((generatePhrase .C_MAJOR "4/4" 100 1 (fun _ => 0)).filter (fun e =>
        decide (e.staff = .treble ∧
          ((0 : ℕ) : ℚ) * (60 / ((100 : ℕ) : ℚ)) ≤ e.time ∧
          e.time < ((0 : ℕ) : ℚ) * (60 / ((100 : ℕ) : ℚ)) + 60 / ((100 : ℕ) : ℚ)))).length = 1 :=
  (claim10_encoder_no_rests .C_MAJOR 100 1 (fun _ => 0) (by decide) (by decide)).1
    0 (by decide)
